import Mathlib

/-!
Shallow embedding of the BullMQ `JobScheduler` core
(`src/classes/job-scheduler.ts`): the `upsertJobScheduler` algorithm, the
instance builder `createNextJob`, the deterministic job-id derivation
`getSchedulerNextJobId`, and the default repeat strategy
`defaultRepeatStrategy`.

Modelling conventions:
- JavaScript numbers holding epoch milliseconds are modelled as `Int`.
  `Math.floor(a / b) * b` is `Int.fdiv a b * b` (floor division agrees with
  `Math.floor` of the real quotient for every nonzero `b`).
- JavaScript truthiness on optional numbers/strings is made explicit:
  `undefined` is `none`, and `0` / `""` are falsy.
- The wall clock is impure in the source: `Date.now()` is read at the top of
  `upsertJobScheduler` (line 78), `new Date().getTime()` is read inside
  `defaultRepeatStrategy` when `immediately` is set (line 369), and
  `Date.now()` is read again inside `createNextJob` (line 218). The three
  reads are passed explicitly as a `Clocks` record.
- The external `cron-parser` library is not part of this repository; it is
  represented abstractly by a parse function returning `Except` (parse
  failure throws) and a `CronInterval` whose `next()` either yields an epoch
  millisecond value or throws.
- Store effects (the MULTI transaction) are recorded as a list of queued
  write commands; the transaction itself is modelled as succeeding, since
  store faults are outside the scope of the verified claims.
-/

namespace BullMQ

/-- JavaScript truthiness of an optional number (`undefined` and `0` are
falsy). -/
def truthyInt : Option Int → Bool
  | none => false
  | some n => n ≠ 0

/-- JavaScript truthiness of an optional string (`undefined` and `""` are
falsy). -/
def truthyStr : Option String → Bool
  | none => false
  | some s => s ≠ ""

/-- `RepeatOptions` as consumed by `upsertJobScheduler` (interval form,
pattern form and the common horizon fields). -/
structure RepeatOpts where
  every : Option Int := none
  pattern : Option String := none
  offset : Option Int := none
  immediately : Bool := false
  startDate : Option Int := none
  endDate : Option Int := none
  limit : Option Int := none
  count : Option Int := none
  tz : Option String := none
deriving Repr, DecidableEq

/-- The template options of the upsert call; only `prevMillis` steers the
scheduling algorithm (`opts.prevMillis || 0`, line 91). -/
structure TemplateOpts where
  prevMillis : Option Int := none
deriving Repr, DecidableEq

/-- Result of one invocation of a repeat strategy: a number, `undefined`
(dead schedule), or a thrown exception. -/
inductive StrategyOutcome where
  | value (n : Int)
  | dead
  | thrown (msg : String)
deriving Repr, DecidableEq

/-- Modelled from the spec: the iterator object returned by the external
`cron-parser` library's `parseExpression`; its `next()` either yields the
next occurrence as epoch ms or throws (for instance when no further
occurrence exists in range). The library is not part of this repository, so
only its observable behaviour is represented. -/
structure CronInterval where
  nextMs : Except String Int
deriving Repr

/-- Shape of the external `parseExpression` call: pattern, options and
`currentDate` in, either a parse error (thrown) or a `CronInterval`. -/
def CronLib : Type := String → RepeatOpts → Int → Except String CronInterval

/-- Embedding of `defaultRepeatStrategy` (job-scheduler.ts lines 355-376).
`parseExpression` is called OUTSIDE the try block, so a parse failure
propagates as an exception; only the `next()` call is guarded. With
`opts.immediately` the source returns `new Date().getTime()` — the wall
clock at the moment of the call, passed here as `nowClock` — not its
`millis` argument. -/
def defaultRepeatStrategy (lib : CronLib) (nowClock : Int) (millis : Int)
    (opts : RepeatOpts) : StrategyOutcome :=
  match lib (opts.pattern.getD "") opts millis with
  | .error e => .thrown e
  | .ok interval =>
    if opts.immediately then .value nowClock
    else
      match interval.nextMs with
      | .ok t => .value t
      | .error _ => .dead

/-- A pluggable repeat strategy as wired into the scheduler:
`(millis, opts, jobName) → outcome`. -/
def Strategy : Type := Int → RepeatOpts → String → StrategyOutcome

/-- The default strategy packaged as a `Strategy`, fixing the library and the
strategy-time wall-clock reading (the job name argument is ignored by the
default strategy, as in the source). -/
def defaultStrategyFor (lib : CronLib) (nowClock : Int) : Strategy :=
  fun millis opts _jobName => defaultRepeatStrategy lib nowClock millis opts

/-- The three wall-clock readings an upsert performs (see module docstring). -/
structure Clocks where
  now0 : Int
  strategyClock : Int
  now2 : Int
deriving Repr, DecidableEq

/-- Metadata persisted by the `addJobScheduler` script (lines 125-131):
`endDate` goes through a truthiness check (`endDate ? new Date(endDate).getTime() : undefined`). -/
structure SchedulerMeta where
  name : String
  endDate : Option Int
  tz : Option String
  pattern : Option String
  every : Option Int
deriving Repr, DecidableEq

/-- A store command queued on the MULTI transaction. -/
inductive StoreWrite where
  | addJobScheduler (id : String) (nextMillis : Int) (dataJSON : String)
      (meta : SchedulerMeta)
  | updateNextMillis (id : String) (nextMillis : Int)
  | addJob (jobId : String)
deriving Repr, DecidableEq

/-- The concrete job record built by `createNextJob` (lines 201-236). The
`repeat` sub-object is flattened into `repeat*` fields; `startDate` and
`immediately` are absent because the source spreads `filteredRepeatOpts`,
which destructures them away (line 85). -/
structure JobRecord where
  jobId : String
  name : String
  data : String
  delay : Int
  timestamp : Int
  prevMillis : Int
  repeatJobKey : String
  repeatEvery : Option Int
  repeatPattern : Option String
  repeatOffset : Option Int
  repeatCount : Int
  repeatEndDate : Option Int
  repeatLimit : Option Int
  repeatTz : Option String
deriving Repr, DecidableEq

/-- What `upsertJobScheduler` resolves to: a thrown exception, `undefined`,
or a job handle. -/
inductive UpsertResult where
  | thrown (msg : String)
  | empty
  | job (j : JobRecord)
deriving Repr, DecidableEq

/-- Instrumented outcome of one `upsertJobScheduler` call: the returned
value, the store commands queued on the transaction, and whether the
`immediately`+`every` warning was emitted. -/
structure UpsertOutcome where
  result : UpsertResult
  writes : List StoreWrite
  warned : Bool
deriving Repr, DecidableEq

/-- Embedding of `getSchedulerNextJobId` (lines 344-352):
``repeat:${jobSchedulerId}:${nextMillis}``. -/
def getSchedulerNextJobId (jobSchedulerId : String) (nextMillis : Int) :
    String :=
  "repeat:" ++ jobSchedulerId ++ ":" ++ toString nextMillis

/-- Embedding of `createNextJob` (lines 201-236): deterministic job id,
`delay = nextMillis − now` clamped at `0`, `timestamp = now`,
`prevMillis = nextMillis`, `repeatJobKey = jobSchedulerId`, and the merged
`repeat` options carrying the recomputed `offset` and the 1-based
`count = currentCount`. `now` is the `Date.now()` read inside the builder. -/
def createNextJob (now : Int) (name : String) (nextMillis : Int)
    (jobSchedulerId : String) (data : String) (repeatOpts : RepeatOpts)
    (newOffset : Option Int) (currentCount : Int) : JobRecord :=
  let jobId := getSchedulerNextJobId jobSchedulerId nextMillis
  let delay := nextMillis - now
  { jobId := jobId
    name := name
    data := data
    delay := if delay < 0 then 0 else delay
    timestamp := now
    prevMillis := nextMillis
    repeatJobKey := jobSchedulerId
    repeatEvery := repeatOpts.every
    repeatPattern := repeatOpts.pattern
    repeatOffset := newOffset
    repeatCount := currentCount
    repeatEndDate := repeatOpts.endDate
    repeatLimit := repeatOpts.limit
    repeatTz := repeatOpts.tz }

/-- Lines 86-89: if `startDate` is truthy, advance `now` to it when it lies
in the future. -/
def startAdjustedNow (now : Int) (startDate : Option Int) : Int :=
  match startDate with
  | some s => if s ≠ 0 then (if s > now then s else now) else now
  | none => now

/-- Lines 86-92: start-date alignment followed by
`now = prevMillis < now ? now : prevMillis`. `prev` is the already-defaulted
`opts.prevMillis || 0`. -/
def adjustNow (now0 : Int) (startDate : Option Int) (prev : Int) : Int :=
  let n := startAdjustedNow now0 startDate
  if prev < n then n else prev

/-- Lines 97-111, the interval (`every`) arithmetic: the next slot is
`Math.floor(now / every) * every + every`; a subsequent fire
(`prevMillis || offset` truthy) lands at `slot + (offset || 0)`, a first
fire at `now` while publishing `newOffset = every − (slot − now)` clamped at
`0`; finally the result is clamped up to `now`. Returns
`(nextMillis, newOffset)`. -/
def intervalNext (now e prev : Int) (offset : Option Int) :
    Int × Option Int :=
  let nextSlot := Int.fdiv now e * e + e
  let firstPair :=
    if prev ≠ 0 ∨ truthyInt offset then
      (nextSlot + offset.getD 0, offset)
    else
      let off := e - (nextSlot - now)
      (now, some (if off < 0 then 0 else off))
  (if firstPair.1 < now then now else firstPair.1, firstPair.2)

/-- Outcome of the `nextMillis` computation (lines 94-114): a value together
with the `newOffset` to persist, `undefined`, or a thrown exception (a
strategy may throw; the core does not catch it). -/
inductive NextOutcome where
  | value (n : Int) (newOffset : Option Int)
  | dead
  | thrown (msg : String)
deriving Repr, DecidableEq

/-- Lines 94-114: branch on the truthiness of `every`, else of `pattern`;
with neither, `nextMillis` stays `undefined`. In the pattern branch
`newOffset` keeps its initial value `offset` (line 95). -/
def computeNext (strategy : Strategy) (now prev : Int) (opts : RepeatOpts)
    (jobName : String) : NextOutcome :=
  if truthyInt opts.every then
    let r := intervalNext now (opts.every.getD 0) prev opts.offset
    .value r.1 r.2
  else if truthyStr opts.pattern then
    match strategy now opts jobName with
    | .value n => .value n opts.offset
    | .dead => .dead
    | .thrown m => .thrown m
  else .dead

/-- Line 80: the guard `!(typeof endDate === undefined)` compares the string
`typeof endDate` with the value `undefined`, hence is constantly `true`; the
effective check is `now > new Date(endDate).getTime()`, which is `false`
when `endDate` is `undefined` because the comparison is against `NaN`. -/
def endDateExceeded (endDate : Option Int) (now : Int) : Bool :=
  match endDate with
  | some e => now > e
  | none => false

/-- Line 69: `repeatOpts.count ? repeatOpts.count + 1 : 1` (truthiness:
`count = 0` behaves like absent). -/
def iterationCountOf (count : Option Int) : Int :=
  match count with
  | some c => if c ≠ 0 then c + 1 else 1
  | none => 1

/-- Line 70-73: the limit check tests presence (`typeof !== 'undefined'`),
not truthiness. -/
def limitExceeded (limit : Option Int) (iterationCount : Int) : Bool :=
  match limit with
  | some l => iterationCount > l
  | none => false

/-- Lines 125-131: metadata handed to the `addJobScheduler` script. -/
def metaOf (jobName : String) (opts : RepeatOpts) : SchedulerMeta :=
  { name := jobName
    endDate :=
      match opts.endDate with
      | some e => if e ≠ 0 then some e else none
      | none => none
    tz := opts.tz
    pattern := opts.pattern
    every := opts.every }

/-- Embedding of `upsertJobScheduler` (lines 34-199). Control flow in source
order: the three validation throws and the `immediately`+`every` warning
(lines 44-66), the iteration-limit check (68-75), the end-date check
(77-82), start/prev alignment (84-92), the `nextMillis` computation
(94-114), the truthiness gate `if (nextMillis)` (117) and the queued store
commands: `addJobScheduler` when `override` else
`updateJobSchedulerNextMillis`, then the instance's `addJob`, with the job
record built by `createNextJob`. The transaction is modelled as succeeding,
so the returned job keeps its deterministic id. -/
def upsertJobScheduler (strategy : Strategy) (clk : Clocks)
    (jobSchedulerId : String) (repeatOpts : RepeatOpts) (jobName : String)
    (jobDataJSON : String) (tOpts : TemplateOpts) (override : Bool) :
    UpsertOutcome :=
  if truthyStr repeatOpts.pattern ∧ truthyInt repeatOpts.every then
    { result := .thrown
        "Both .pattern and .every options are defined for this repeatable job"
      writes := []
      warned := false }
  else if ¬ truthyStr repeatOpts.pattern ∧ ¬ truthyInt repeatOpts.every then
    { result := .thrown
        "Either .pattern or .every options must be defined for this repeatable job"
      writes := []
      warned := false }
  else if repeatOpts.immediately ∧ truthyInt repeatOpts.startDate then
    { result := .thrown
        "Both .immediately and .startDate options are defined for this repeatable job"
      writes := []
      warned := false }
  else
    let warned := repeatOpts.immediately ∧ truthyInt repeatOpts.every
    let iterationCount := iterationCountOf repeatOpts.count
    if limitExceeded repeatOpts.limit iterationCount then
      { result := .empty, writes := [], warned := warned }
    else if endDateExceeded repeatOpts.endDate clk.now0 then
      { result := .empty, writes := [], warned := warned }
    else
      let prev := (tOpts.prevMillis.getD 0)
      let now := adjustNow clk.now0 repeatOpts.startDate prev
      match computeNext strategy now prev repeatOpts jobName with
      | .thrown m => { result := .thrown m, writes := [], warned := warned }
      | .dead => { result := .empty, writes := [], warned := warned }
      | .value n newOffset =>
        if n ≠ 0 then
          let schedWrite :=
            if override then
              StoreWrite.addJobScheduler jobSchedulerId n jobDataJSON
                (metaOf jobName repeatOpts)
            else
              StoreWrite.updateNextMillis jobSchedulerId n
          let j := createNextJob clk.now2 jobName n jobSchedulerId
            jobDataJSON repeatOpts newOffset iterationCount
          { result := .job j
            writes := [schedWrite, .addJob j.jobId]
            warned := warned }
        else
          { result := .empty, writes := [], warned := warned }

/-- The index score carried by the first queued store command, when any. -/
def scoreOfWrite : StoreWrite → Option Int
  | .addJobScheduler _ n _ _ => some n
  | .updateNextMillis _ n => some n
  | .addJob _ => none

/-- The next-fire score an upsert queued for the scheduler index (`none`
when nothing was queued). -/
def writtenScore (o : UpsertOutcome) : Option Int :=
  match o.writes with
  | w :: _ => scoreOfWrite w
  | [] => none

/-- The stored `repeat.offset` of the job an upsert returned (`none` when no
job was returned). -/
def resultOffset (o : UpsertOutcome) : Option Int :=
  match o.result with
  | .job j => j.repeatOffset
  | _ => none

/-- The three validation checks of lines 44-60 all pass. -/
def validationPasses (o : RepeatOpts) : Prop :=
  ¬ (truthyStr o.pattern ∧ truthyInt o.every) ∧
    (truthyStr o.pattern ∨ truthyInt o.every) ∧
    ¬ (o.immediately ∧ truthyInt o.startDate)

instance (o : RepeatOpts) : Decidable (validationPasses o) := by
  unfold validationPasses; infer_instance

/-- A strategy that is never consulted (used for interval-form calls). -/
def dummyStrategy : Strategy := fun _ _ _ => .dead

/-- A cron library stub whose parse always succeeds and whose `next()`
always yields the fixed instant `t`. -/
def libNextAt (t : Int) : CronLib := fun _ _ _ => .ok { nextMs := .ok t }

/-- A cron library stub whose parse always fails (invalid expression). -/
def libParseFail : CronLib := fun _ _ _ => .error "Invalid cron expression"

/-- A cron library stub whose parse succeeds but whose `next()` throws
(iteration exhausted). -/
def libIterFail : CronLib := fun _ _ _ => .ok { nextMs := .error "Out of range" }

end BullMQ

namespace BullMQ

theorem fdiv_mul_bounds (a e : Int) (he : 0 < e) :
    Int.fdiv a e * e ≤ a ∧ a < Int.fdiv a e * e + e := by
  rw [Int.fdiv_eq_ediv _ he.le]
  have h1 := Int.ediv_add_emod a e
  have h2 := Int.emod_lt_of_pos a he
  have h3 := Int.emod_nonneg a (ne_of_gt he)
  have hc : a / e * e = e * (a / e) := mul_comm _ _
  omega

theorem intervalNext_first_fire (now e : Int) (he : 0 < e) :
    intervalNext now e 0 none =
      (now, some (e - (Int.fdiv now e * e + e - now))) := by
  have hb := fdiv_mul_bounds now e he
  simp only [intervalNext, truthyInt]
  norm_num
  omega

theorem intervalNext_fst_ge (now e prev : Int) (off : Option Int) :
    now ≤ (intervalNext now e prev off).1 := by
  unfold intervalNext
  simp only
  split <;> omega

theorem adjustNow_ge_now0 (now0 : Int) (sd : Option Int) (prev : Int) :
    now0 ≤ adjustNow now0 sd prev := by
  unfold adjustNow startAdjustedNow
  cases sd <;> simp only <;> split <;> try split
  all_goals omega

theorem adjustNow_ge_prev (now0 : Int) (sd : Option Int) (prev : Int) :
    prev ≤ adjustNow now0 sd prev := by
  unfold adjustNow
  simp only
  split <;> omega

theorem adjustNow_ge_startDate (now0 s prev : Int) (h0 : 0 ≤ now0) :
    s ≤ adjustNow now0 (some s) prev := by
  unfold adjustNow startAdjustedNow
  simp only
  split <;> split <;> try split
  all_goals omega

end BullMQ

namespace BullMQ

/-- C1 (amended): for an interval scheduler's first fire (no `prevMillis`
and no prior `offset`), `upsertJobScheduler` sets `nextFireMs = now` and
publishes a new `offset = every − (slot − now)` into the stored repeat
options, where `slot = floor(now / every) * every + every`; concretely,
`upsert("s1", {every: 1000}, "j", …, {override: true})` at `now = 1000`
returns a job with id `"repeat:s1:1000"` and delay `0`, and the stored
offset equals `0` (not `1000`: the formula evaluates to `now mod every`). -/
theorem c1_interval_first_fire (clk : Clocks) (id jobName data : String)
    (e : Int) (he : 0 < e) (hnow : 0 < clk.now0) (hc : clk.now2 = clk.now0) :
    writtenScore (upsertJobScheduler dummyStrategy clk id { every := some e }
        jobName data {} true) = some clk.now0 ∧
    resultOffset (upsertJobScheduler dummyStrategy clk id { every := some e }
        jobName data {} true)
      = some (e - (Int.fdiv clk.now0 e * e + e - clk.now0)) ∧
    ∃ j, (upsertJobScheduler dummyStrategy clk id { every := some e }
        jobName data {} true).result = .job j ∧
      j.jobId = "repeat:" ++ id ++ ":" ++ toString clk.now0 ∧ j.delay = 0 := by
  have hne : e ≠ 0 := by omega
  have hn0 : clk.now0 ≠ 0 := by omega
  have hadj : adjustNow clk.now0 none 0 = clk.now0 := by
    simp only [adjustNow, startAdjustedNow]
    split <;> omega
  have key : upsertJobScheduler dummyStrategy clk id { every := some e }
      jobName data {} true =
      { result := .job (createNextJob clk.now2 jobName clk.now0 id data
          { every := some e }
          (some (e - (Int.fdiv clk.now0 e * e + e - clk.now0))) 1)
        writes := [.addJobScheduler id clk.now0 data
            (metaOf jobName { every := some e }),
          .addJob (getSchedulerNextJobId id clk.now0)]
        warned := false } := by
    unfold upsertJobScheduler
    simp [truthyStr, truthyInt, iterationCountOf, limitExceeded,
      endDateExceeded, computeNext, Option.getD, hadj,
      intervalNext_first_fire clk.now0 e he, createNextJob,
      getSchedulerNextJobId, hne, hn0, hc]
  rw [key]
  refine ⟨rfl, rfl, ⟨_, rfl, ?_, ?_⟩⟩
  · rfl
  · simp [createNextJob, hc]

/-- C1 witness: the amended first-fire law evaluated at the concrete
scenario `now = 1000`, `every = 1000`, scheduler id `"s1"`. -/
theorem c1_interval_first_fire_witness :
    writtenScore (upsertJobScheduler dummyStrategy ⟨1000, 1000, 1000⟩ "s1"
        { every := some 1000 } "j" "d" {} true) = some 1000 ∧
    resultOffset (upsertJobScheduler dummyStrategy ⟨1000, 1000, 1000⟩ "s1"
        { every := some 1000 } "j" "d" {} true)
      = some (1000 - (Int.fdiv 1000 1000 * 1000 + 1000 - 1000)) ∧
    ∃ j, (upsertJobScheduler dummyStrategy ⟨1000, 1000, 1000⟩ "s1"
        { every := some 1000 } "j" "d" {} true).result = .job j ∧
      j.jobId = "repeat:" ++ "s1" ++ ":" ++ toString (1000 : Int) ∧
      j.delay = 0 :=
  c1_interval_first_fire ⟨1000, 1000, 1000⟩ "s1" "j" "d" 1000 (by norm_num)
    (by norm_num) rfl

/-- C1 counterexample: at `now = 1000`, `every = 1000` the stored offset is
`0`, not `1000` as the claim's concrete expectation states (the claim's own
formula `every − (slot − now)` with `slot = floor(now/every)*every + every`
gives `1000 − (2000 − 1000) = 0`). -/
theorem c1_counterexample :
    resultOffset (upsertJobScheduler dummyStrategy ⟨1000, 1000, 1000⟩ "s1"
        { every := some 1000 } "j" "d" {} true) = some 0 ∧
    resultOffset (upsertJobScheduler dummyStrategy ⟨1000, 1000, 1000⟩ "s1"
        { every := some 1000 } "j" "d" {} true) ≠ some 1000 := by
  decide

end BullMQ

namespace BullMQ

/-- C2: for every `upsertJobScheduler` call that passes validation and whose
repeat options carry an `endDate` with `now > endDate`, the call is a no-op:
it returns empty before any store contact and writes nothing. -/
theorem c2_endDate_respected (strategy : Strategy) (clk : Clocks)
    (id jobName data : String) (opts : RepeatOpts) (tOpts : TemplateOpts)
    (ov : Bool) (ed : Int) (hv : validationPasses opts)
    (hed : opts.endDate = some ed) (h : clk.now0 > ed) :
    (upsertJobScheduler strategy clk id opts jobName data tOpts ov).result
        = .empty ∧
    (upsertJobScheduler strategy clk id opts jobName data tOpts ov).writes
        = [] := by
  obtain ⟨h1, h2, h3⟩ := hv
  rcases h2 with hpe | hpe
  · have hno : ¬ truthyInt opts.every = true := fun hx => h1 ⟨hpe, hx⟩
    by_cases hl : limitExceeded opts.limit (iterationCountOf opts.count) = true <;>
      constructor <;>
        simp [upsertJobScheduler, h1, h3, hpe, hno, hl, endDateExceeded, hed, h]
  · have hno : ¬ truthyStr opts.pattern = true := fun hx => h1 ⟨hx, hpe⟩
    by_cases hl : limitExceeded opts.limit (iterationCountOf opts.count) = true <;>
      constructor <;>
        simp [upsertJobScheduler, h1, h3, hpe, hno, hl, endDateExceeded, hed, h]

/-- C2 witness: an upsert with `endDate = 500` at `now = 1000` returns empty
and queues no store command. -/
theorem c2_endDate_respected_witness :
    (upsertJobScheduler dummyStrategy ⟨1000, 0, 0⟩ "s"
        { every := some 1000, endDate := some 500 } "j" "d" {} true).result
        = .empty ∧
    (upsertJobScheduler dummyStrategy ⟨1000, 0, 0⟩ "s"
        { every := some 1000, endDate := some 500 } "j" "d" {} true).writes
        = [] :=
  c2_endDate_respected dummyStrategy ⟨1000, 0, 0⟩ "s" "j" "d"
    { every := some 1000, endDate := some 500 } {} true 500 (by decide) rfl
    (by decide)

/-- C7: for every `upsertJobScheduler` call that passes validation, where
`limit` is set and the iteration count (`count`, with `0`/absent defaulting
to `0`, plus one) exceeds `limit`, the call returns empty with no store
write and no instance. -/
theorem c7_limit_respected (strategy : Strategy) (clk : Clocks)
    (id jobName data : String) (opts : RepeatOpts) (tOpts : TemplateOpts)
    (ov : Bool) (l : Int) (hv : validationPasses opts)
    (hlim : opts.limit = some l) (h : iterationCountOf opts.count > l) :
    (upsertJobScheduler strategy clk id opts jobName data tOpts ov).result
        = .empty ∧
    (upsertJobScheduler strategy clk id opts jobName data tOpts ov).writes
        = [] := by
  obtain ⟨h1, h2, h3⟩ := hv
  rcases h2 with hpe | hpe
  · have hno : ¬ truthyInt opts.every = true := fun hx => h1 ⟨hpe, hx⟩
    constructor <;>
      simp [upsertJobScheduler, h1, h3, hpe, hno, limitExceeded, hlim, h]
  · have hno : ¬ truthyStr opts.pattern = true := fun hx => h1 ⟨hx, hpe⟩
    constructor <;>
      simp [upsertJobScheduler, h1, h3, hpe, hno, limitExceeded, hlim, h]

/-- C7 witness: with `limit = 2` and `count = 2` (the third upsert), the
call returns empty and queues nothing — the (`limit`+1)th upsert is a
no-op. -/
theorem c7_limit_respected_witness :
    (upsertJobScheduler dummyStrategy ⟨1000, 0, 0⟩ "s3"
        { every := some 1000, limit := some 2, count := some 2 } "j" "d"
        { prevMillis := some 2000 } false).result = .empty ∧
    (upsertJobScheduler dummyStrategy ⟨1000, 0, 0⟩ "s3"
        { every := some 1000, limit := some 2, count := some 2 } "j" "d"
        { prevMillis := some 2000 } false).writes = [] :=
  c7_limit_respected dummyStrategy ⟨1000, 0, 0⟩ "s3" "j" "d"
    { every := some 1000, limit := some 2, count := some 2 }
    { prevMillis := some 2000 } false 2 (by decide) rfl (by decide)

end BullMQ

namespace BullMQ

/-- C8: `upsertJobScheduler` raises a validation error before any store
contact when both `pattern` and `every` are set, when neither is set, or
when both `immediately` and `startDate` are set; combining `immediately`
with `every` only emits a warning and the call proceeds (it never throws;
it returns empty or a job). -/
theorem c8_validation_errors (strategy : Strategy) (clk : Clocks)
    (id jobName data : String) (opts : RepeatOpts) (tOpts : TemplateOpts)
    (ov : Bool) :
    (truthyStr opts.pattern = true → truthyInt opts.every = true →
      upsertJobScheduler strategy clk id opts jobName data tOpts ov =
        { result := .thrown
            "Both .pattern and .every options are defined for this repeatable job"
          writes := [], warned := false }) ∧
    (¬ truthyStr opts.pattern = true → ¬ truthyInt opts.every = true →
      upsertJobScheduler strategy clk id opts jobName data tOpts ov =
        { result := .thrown
            "Either .pattern or .every options must be defined for this repeatable job"
          writes := [], warned := false }) ∧
    (¬ (truthyStr opts.pattern = true ∧ truthyInt opts.every = true) →
      (truthyStr opts.pattern = true ∨ truthyInt opts.every = true) →
      opts.immediately = true → truthyInt opts.startDate = true →
      upsertJobScheduler strategy clk id opts jobName data tOpts ov =
        { result := .thrown
            "Both .immediately and .startDate options are defined for this repeatable job"
          writes := [], warned := false }) ∧
    (opts.immediately = true → truthyInt opts.every = true →
      ¬ truthyStr opts.pattern = true → ¬ truthyInt opts.startDate = true →
      (upsertJobScheduler strategy clk id opts jobName data tOpts ov).warned
          = true ∧
      ((upsertJobScheduler strategy clk id opts jobName data tOpts ov).result
          = .empty ∨
        ∃ j, (upsertJobScheduler strategy clk id opts jobName data
            tOpts ov).result = .job j)) := by
  refine ⟨?_, ?_, ?_, ?_⟩
  · intro hp he
    simp [upsertJobScheduler, hp, he]
  · intro hp he
    simp [upsertJobScheduler, hp, he]
  · intro h1 hor him hsd
    rcases hor with hx | hx
    · have hno : truthyInt opts.every = false :=
        Bool.eq_false_iff.mpr fun hE => h1 ⟨hx, hE⟩
      simp [upsertJobScheduler, him, hsd, hx, hno]
    · have hno : truthyStr opts.pattern = false :=
        Bool.eq_false_iff.mpr fun hP => h1 ⟨hP, hx⟩
      simp [upsertJobScheduler, him, hsd, hx, hno]
  · intro him he hp hsd
    constructor
    · simp [upsertJobScheduler, him, he, hp, hsd, computeNext]
      split
      · rfl
      · split
        · rfl
        · split
          · rfl
          · rfl
    · simp [upsertJobScheduler, him, he, hp, hsd, computeNext]
      split
      · exact Or.inl rfl
      · split
        · exact Or.inl rfl
        · split
          · exact Or.inl rfl
          · exact Or.inr ⟨_, rfl⟩

/-- C8 witness: the three throwing combinations at concrete options, and
the `immediately`+`every` combination warning while proceeding. -/
theorem c8_validation_errors_witness :
    (upsertJobScheduler dummyStrategy ⟨0, 0, 0⟩ "s"
        { every := some 5, pattern := some "p" } "j" "d" {} true =
      { result := .thrown
          "Both .pattern and .every options are defined for this repeatable job"
        writes := [], warned := false }) ∧
    (upsertJobScheduler dummyStrategy ⟨0, 0, 0⟩ "s" {} "j" "d" {} true =
      { result := .thrown
          "Either .pattern or .every options must be defined for this repeatable job"
        writes := [], warned := false }) ∧
    (upsertJobScheduler dummyStrategy ⟨0, 0, 0⟩ "s"
        { pattern := some "p", immediately := true, startDate := some 7 }
        "j" "d" {} true =
      { result := .thrown
          "Both .immediately and .startDate options are defined for this repeatable job"
        writes := [], warned := false }) ∧
    ((upsertJobScheduler dummyStrategy ⟨1000, 0, 1000⟩ "s"
        { every := some 5, immediately := true } "j" "d" {} true).warned
        = true ∧
      ((upsertJobScheduler dummyStrategy ⟨1000, 0, 1000⟩ "s"
          { every := some 5, immediately := true } "j" "d" {} true).result
          = .empty ∨
        ∃ j, (upsertJobScheduler dummyStrategy ⟨1000, 0, 1000⟩ "s"
            { every := some 5, immediately := true } "j" "d" {} true).result
            = .job j)) :=
  ⟨(c8_validation_errors dummyStrategy ⟨0, 0, 0⟩ "s" "j" "d"
      { every := some 5, pattern := some "p" } {} true).1 (by decide)
      (by decide),
   (c8_validation_errors dummyStrategy ⟨0, 0, 0⟩ "s" "j" "d" {} {} true).2.1
      (by decide) (by decide),
   (c8_validation_errors dummyStrategy ⟨0, 0, 0⟩ "s" "j" "d"
      { pattern := some "p", immediately := true, startDate := some 7 } {}
      true).2.2.1 (by decide) (by decide) (by decide) (by decide),
   (c8_validation_errors dummyStrategy ⟨1000, 0, 1000⟩ "s" "j" "d"
      { every := some 5, immediately := true } {} true).2.2.2 rfl
      (by decide) (by decide) (by decide)⟩

end BullMQ

namespace BullMQ

theorem ite_clamp_eq_max (d : Int) : (if d < 0 then 0 else d) = max 0 d := by
  rcases le_or_lt 0 d with h | h
  · rw [if_neg (not_lt.mpr h), max_eq_right h]
  · rw [if_pos h, max_eq_left (by omega)]

/-- C9: every next-instance job record built by `upsertJobScheduler` has
`jobId = "repeat:" + schedulerId + ":" + nextFireMs`,
`delay = max(0, nextFireMs − now)` (with `now` the builder-time clock),
`timestamp = now`, `prevMillis = nextFireMs`, `repeatJobKey = schedulerId`,
and `repeat.count = iterationCount` (1-based), where `nextFireMs` is the
score queued for the scheduler index. -/
theorem c9_next_instance_fields (strategy : Strategy) (clk : Clocks)
    (id jobName data : String) (opts : RepeatOpts) (tOpts : TemplateOpts)
    (ov : Bool) (j : JobRecord)
    (h : (upsertJobScheduler strategy clk id opts jobName data
        tOpts ov).result = .job j) :
    ∃ n, writtenScore (upsertJobScheduler strategy clk id opts jobName data
        tOpts ov) = some n ∧
      j.jobId = "repeat:" ++ id ++ ":" ++ toString n ∧
      j.delay = max 0 (n - clk.now2) ∧
      j.timestamp = clk.now2 ∧
      j.prevMillis = n ∧
      j.repeatJobKey = id ∧
      j.repeatCount = iterationCountOf opts.count := by
  revert h
  unfold upsertJobScheduler
  split
  · intro h; simp at h
  · split
    · intro h; simp at h
    · split
      · intro h; simp at h
      · dsimp only
        split
        · intro h; simp at h
        · split
          · intro h; simp at h
          · split
            · intro h; simp at h
            · intro h; simp at h
            · rename_i n newOffset heq
              split
              · intro h
                simp only [UpsertResult.job.injEq] at h
                subst h
                refine ⟨n, ?_, ?_, ?_, ?_, ?_, ?_, ?_⟩
                · simp only [writtenScore]
                  split <;> rfl
                all_goals
                  simp [createNextJob, getSchedulerNextJobId,
                    ite_clamp_eq_max]
                split <;> omega
              · intro h; simp at h

/-- C9 witness: the instance built by the concrete subsequent-fire scenario
(`nextFireMs = 3000` at builder clock `1500`) satisfies all the field
equations. -/
theorem c9_next_instance_fields_witness :
    ∃ n, writtenScore (upsertJobScheduler dummyStrategy ⟨1500, 1500, 1500⟩
        "s1" { every := some 1000, offset := some 1000 } "j" "d"
        { prevMillis := some 1000 } false) = some n ∧
      ({ jobId := "repeat:s1:3000", name := "j", data := "d", delay := 1500,
         timestamp := 1500, prevMillis := 3000, repeatJobKey := "s1",
         repeatEvery := some 1000, repeatPattern := none,
         repeatOffset := some 1000, repeatCount := 1, repeatEndDate := none,
         repeatLimit := none, repeatTz := none } : JobRecord).jobId
          = "repeat:" ++ "s1" ++ ":" ++ toString n ∧
      ({ jobId := "repeat:s1:3000", name := "j", data := "d", delay := 1500,
         timestamp := 1500, prevMillis := 3000, repeatJobKey := "s1",
         repeatEvery := some 1000, repeatPattern := none,
         repeatOffset := some 1000, repeatCount := 1, repeatEndDate := none,
         repeatLimit := none, repeatTz := none } : JobRecord).delay
          = max 0 (n - 1500) ∧
      ({ jobId := "repeat:s1:3000", name := "j", data := "d", delay := 1500,
         timestamp := 1500, prevMillis := 3000, repeatJobKey := "s1",
         repeatEvery := some 1000, repeatPattern := none,
         repeatOffset := some 1000, repeatCount := 1, repeatEndDate := none,
         repeatLimit := none, repeatTz := none } : JobRecord).timestamp
          = 1500 ∧
      ({ jobId := "repeat:s1:3000", name := "j", data := "d", delay := 1500,
         timestamp := 1500, prevMillis := 3000, repeatJobKey := "s1",
         repeatEvery := some 1000, repeatPattern := none,
         repeatOffset := some 1000, repeatCount := 1, repeatEndDate := none,
         repeatLimit := none, repeatTz := none } : JobRecord).prevMillis
          = n ∧
      ({ jobId := "repeat:s1:3000", name := "j", data := "d", delay := 1500,
         timestamp := 1500, prevMillis := 3000, repeatJobKey := "s1",
         repeatEvery := some 1000, repeatPattern := none,
         repeatOffset := some 1000, repeatCount := 1, repeatEndDate := none,
         repeatLimit := none, repeatTz := none } : JobRecord).repeatJobKey
          = "s1" ∧
      ({ jobId := "repeat:s1:3000", name := "j", data := "d", delay := 1500,
         timestamp := 1500, prevMillis := 3000, repeatJobKey := "s1",
         repeatEvery := some 1000, repeatPattern := none,
         repeatOffset := some 1000, repeatCount := 1, repeatEndDate := none,
         repeatLimit := none, repeatTz := none } : JobRecord).repeatCount
          = iterationCountOf none :=
  c9_next_instance_fields dummyStrategy ⟨1500, 1500, 1500⟩ "s1" "j" "d"
    { every := some 1000, offset := some 1000 } { prevMillis := some 1000 }
    false
    { jobId := "repeat:s1:3000", name := "j", data := "d", delay := 1500,
      timestamp := 1500, prevMillis := 3000, repeatJobKey := "s1",
      repeatEvery := some 1000, repeatPattern := none,
      repeatOffset := some 1000, repeatCount := 1, repeatEndDate := none,
      repeatLimit := none, repeatTz := none } (by decide)

end BullMQ

namespace BullMQ

/-- C6: for an interval scheduler's subsequent fire — triggered by the
disjunction of line 99, `prevMillis` truthy OR `offset` truthy —
`nextFireMs = slot + (offset || 0)` clamped up to `now` when the result
would lie in the past (here `now` is the prev-adjusted clock and
`slot = floor(now/every)*every + every`), and that value is the score the
upsert queues; concretely, a second upsert with `{every: 1000, offset: 1000}`
and `prevMillis = 1000` at `now = 1500` returns a job with id
`"repeat:s1:3000"`, delay `1500`, and index score `3000`. -/
theorem c6_subsequent_fire (clk : Clocks) (id jobName data : String)
    (e : Int) (off pOpt : Option Int) (ov : Bool) (he : e ≠ 0)
    (hsub : pOpt.getD 0 ≠ 0 ∨ truthyInt off = true) :
    (intervalNext (adjustNow clk.now0 none (pOpt.getD 0)) e (pOpt.getD 0)
        off).1 =
      (if Int.fdiv (adjustNow clk.now0 none (pOpt.getD 0)) e * e + e
            + off.getD 0 < adjustNow clk.now0 none (pOpt.getD 0)
        then adjustNow clk.now0 none (pOpt.getD 0)
        else Int.fdiv (adjustNow clk.now0 none (pOpt.getD 0)) e * e + e
          + off.getD 0) ∧
    ((intervalNext (adjustNow clk.now0 none (pOpt.getD 0)) e (pOpt.getD 0)
        off).1 ≠ 0 →
      writtenScore (upsertJobScheduler dummyStrategy clk id
          { every := some e, offset := off } jobName data
          { prevMillis := pOpt } ov)
        = some (intervalNext (adjustNow clk.now0 none (pOpt.getD 0)) e
            (pOpt.getD 0) off).1) ∧
    upsertJobScheduler dummyStrategy ⟨1500, 1500, 1500⟩ "s1"
        { every := some 1000, offset := some 1000 } "j" "d"
        { prevMillis := some 1000 } false =
      { result := .job { jobId := "repeat:s1:3000", name := "j",
                         data := "d", delay := 1500, timestamp := 1500,
                         prevMillis := 3000, repeatJobKey := "s1",
                         repeatEvery := some 1000, repeatPattern := none,
                         repeatOffset := some 1000, repeatCount := 1,
                         repeatEndDate := none, repeatLimit := none,
                         repeatTz := none }
        writes := [.updateNextMillis "s1" 3000, .addJob "repeat:s1:3000"]
        warned := false } := by
  refine ⟨?_, ?_, ?_⟩
  · simp only [intervalNext]
    rw [if_pos hsub]
  · intro hn
    cases ov <;>
      · unfold upsertJobScheduler
        simp [truthyStr, truthyInt, iterationCountOf, limitExceeded,
          endDateExceeded, computeNext, he, hn, writtenScore,
          scoreOfWrite]
  · decide

/-- C6 witness: the subsequent-fire score law evaluated at all three trigger
configurations — `prevMillis` and `offset` both truthy (`now = 1500`,
score `3000`), `offset` only (`prevMillis` absent, score `2300`), and
`prevMillis` only (`offset` absent, score `2000`). -/
theorem c6_subsequent_fire_witness :
    writtenScore (upsertJobScheduler dummyStrategy ⟨1500, 1500, 1500⟩ "s1"
        { every := some 1000, offset := some 1000 } "j" "d"
        { prevMillis := some 1000 } false)
      = some (intervalNext (adjustNow 1500 none ((some 1000 : Option
          Int).getD 0)) 1000 ((some 1000 : Option Int).getD 0)
          (some 1000)).1 ∧
    writtenScore (upsertJobScheduler dummyStrategy ⟨1500, 1500, 1500⟩ "s1"
        { every := some 1000, offset := some 300 } "j" "d"
        { prevMillis := none } false)
      = some (intervalNext (adjustNow 1500 none ((none : Option
          Int).getD 0)) 1000 ((none : Option Int).getD 0) (some 300)).1 ∧
    writtenScore (upsertJobScheduler dummyStrategy ⟨1500, 1500, 1500⟩ "s1"
        { every := some 1000, offset := none } "j" "d"
        { prevMillis := some 1000 } false)
      = some (intervalNext (adjustNow 1500 none ((some 1000 : Option
          Int).getD 0)) 1000 ((some 1000 : Option Int).getD 0) none).1 :=
  ⟨(c6_subsequent_fire ⟨1500, 1500, 1500⟩ "s1" "j" "d" 1000 (some 1000)
      (some 1000) false (by decide) (by decide)).2.1 (by decide),
   (c6_subsequent_fire ⟨1500, 1500, 1500⟩ "s1" "j" "d" 1000 (some 300)
      none false (by decide) (by decide)).2.1 (by decide),
   (c6_subsequent_fire ⟨1500, 1500, 1500⟩ "s1" "j" "d" 1000 none
      (some 1000) false (by decide) (by decide)).2.1 (by decide)⟩

end BullMQ

namespace BullMQ

/-- C3 (amended): when cron ITERATION fails (the parse succeeded but
`next()` threw), the default repeat strategy returns undefined and the
enclosing `upsertJobScheduler` is a silent no-op that returns empty with
nothing written (the definition is preserved); a parse failure, by
contrast, escapes as an exception because `parseExpression` sits outside
the try block. -/
theorem c3_iteration_failure_silent (lib : CronLib) (clk : Clocks)
    (id jobName data : String) (opts : RepeatOpts) (tOpts : TemplateOpts)
    (ov : Bool) (itv : CronInterval) (m : String)
    (hv : validationPasses opts) (he : ¬ truthyInt opts.every = true)
    (himm : opts.immediately = false)
    (hparse : ∀ cur, lib (opts.pattern.getD "") opts cur = .ok itv)
    (hnext : itv.nextMs = .error m) :
    (∀ millis, defaultRepeatStrategy lib clk.strategyClock millis opts
        = .dead) ∧
    (upsertJobScheduler (defaultStrategyFor lib clk.strategyClock) clk id
        opts jobName data tOpts ov).result = .empty ∧
    (upsertJobScheduler (defaultStrategyFor lib clk.strategyClock) clk id
        opts jobName data tOpts ov).writes = [] := by
  have hstrat : ∀ millis,
      defaultRepeatStrategy lib clk.strategyClock millis opts = .dead := by
    intro millis
    unfold defaultRepeatStrategy
    rw [hparse millis]
    simp [himm, hnext]
  obtain ⟨h1, h2, h3⟩ := hv
  have hp : truthyStr opts.pattern = true := by
    rcases h2 with h | h
    · exact h
    · exact absurd h he
  refine ⟨hstrat, ?_, ?_⟩ <;>
    by_cases hl : limitExceeded opts.limit (iterationCountOf opts.count)
        = true <;>
      by_cases hend : endDateExceeded opts.endDate clk.now0 = true <;>
        simp [upsertJobScheduler, h1, h3, hp, he, hl, hend, computeNext,
          defaultStrategyFor, hstrat]

/-- C3 witness: with a library whose `next()` throws (`libIterFail`), the
strategy is dead and the concrete upsert returns empty writing nothing. -/
theorem c3_iteration_failure_silent_witness :
    (∀ millis, defaultRepeatStrategy libIterFail 1000 millis
        { pattern := some "0 0 1 1 *" } = .dead) ∧
    (upsertJobScheduler (defaultStrategyFor libIterFail 1000)
        ⟨1000, 1000, 1000⟩ "s2" { pattern := some "0 0 1 1 *" } "j" "d" {}
        true).result = .empty ∧
    (upsertJobScheduler (defaultStrategyFor libIterFail 1000)
        ⟨1000, 1000, 1000⟩ "s2" { pattern := some "0 0 1 1 *" } "j" "d" {}
        true).writes = [] :=
  c3_iteration_failure_silent libIterFail ⟨1000, 1000, 1000⟩ "s2" "j" "d"
    { pattern := some "0 0 1 1 *" } {} true
    { nextMs := .error "Out of range" } "Out of range" (by decide)
    (by decide) rfl (fun _ => rfl) rfl

/-- C3 counterexample: a cron PARSE failure does not make the strategy
return undefined — the exception escapes and `upsertJobScheduler`
propagates it instead of being a silent no-op returning empty. -/
theorem c3_counterexample :
    defaultRepeatStrategy libParseFail 1000 1000 { pattern := some "* * w" }
        = .thrown "Invalid cron expression" ∧
    defaultRepeatStrategy libParseFail 1000 1000 { pattern := some "* * w" }
        ≠ .dead ∧
    (upsertJobScheduler (defaultStrategyFor libParseFail 1000)
        ⟨1000, 1000, 1000⟩ "s2" { pattern := some "* * w" } "j" "d" {}
        true).result = .thrown "Invalid cron expression" ∧
    (upsertJobScheduler (defaultStrategyFor libParseFail 1000)
        ⟨1000, 1000, 1000⟩ "s2" { pattern := some "* * w" } "j" "d" {}
        true).result ≠ .empty := by
  decide

/-- C4 (amended): with `opts.immediately` set (and a parse-ok library) the
default repeat strategy returns the wall clock read inside the strategy
(`new Date().getTime()`), not its `now` argument; consequently an upsert
whose strategy-time clock reads `T` (nonzero, horizons passing) queues
`nextFireMs = T`, whatever the adjusted `now` argument was. -/
theorem c4_immediately_wall_clock (lib : CronLib) (clk : Clocks)
    (millis : Int) (id jobName data : String) (opts : RepeatOpts)
    (tOpts : TemplateOpts) (ov : Bool) (itv : CronInterval)
    (hparse : ∀ cur, lib (opts.pattern.getD "") opts cur = .ok itv)
    (himm : opts.immediately = true)
    (hv : validationPasses opts) (he : ¬ truthyInt opts.every = true)
    (hlim : ¬ limitExceeded opts.limit (iterationCountOf opts.count) = true)
    (hend : ¬ endDateExceeded opts.endDate clk.now0 = true)
    (hnz : clk.strategyClock ≠ 0) :
    defaultRepeatStrategy lib clk.strategyClock millis opts
        = .value clk.strategyClock ∧
    writtenScore (upsertJobScheduler (defaultStrategyFor lib
        clk.strategyClock) clk id opts jobName data tOpts ov)
      = some clk.strategyClock := by
  have hstrat : ∀ cur, defaultRepeatStrategy lib clk.strategyClock cur opts
      = .value clk.strategyClock := by
    intro cur
    unfold defaultRepeatStrategy
    rw [hparse cur]
    simp [himm]
  obtain ⟨h1, h2, h3⟩ := hv
  have hp : truthyStr opts.pattern = true := by
    rcases h2 with h | h
    · exact h
    · exact absurd h he
  refine ⟨hstrat millis, ?_⟩
  cases ov <;>
    · unfold upsertJobScheduler
      simp [h1, h3, hp, he, hlim, hend, computeNext, defaultStrategyFor,
        hstrat, hnz, writtenScore, scoreOfWrite]

/-- C4 witness: strategy-time clock `1000` with `now` argument `2000`
returns `1000`, and the concrete upsert queues score `1000`. -/
theorem c4_immediately_wall_clock_witness :
    defaultRepeatStrategy (libNextAt 999999) 1000 2000
        { pattern := some "* * * * *", immediately := true }
        = .value 1000 ∧
    writtenScore (upsertJobScheduler (defaultStrategyFor (libNextAt 999999)
        1000) ⟨1000, 1000, 1000⟩ "s4"
        { pattern := some "* * * * *", immediately := true } "j" "d" {}
        true) = some 1000 :=
  c4_immediately_wall_clock (libNextAt 999999) ⟨1000, 1000, 1000⟩ 2000 "s4"
    "j" "d" { pattern := some "* * * * *", immediately := true } {} true
    { nextMs := .ok 999999 } (fun _ => rfl) rfl (by decide) (by decide)
    (by decide) (by decide) (by decide)

/-- C4 counterexample: the strategy does not return its `now` argument —
called with `now = 2000` while the strategy-time wall clock reads `1000`,
it returns `1000`, not `2000`. -/
theorem c4_counterexample :
    defaultRepeatStrategy (libNextAt 999999) 1000 2000
        { pattern := some "* * * * *", immediately := true }
        = .value 1000 ∧
    defaultRepeatStrategy (libNextAt 999999) 1000 2000
        { pattern := some "* * * * *", immediately := true }
        ≠ .value 2000 := by
  decide

/-- C10: a repeat strategy yielding `0` (a defined number that is falsy in
JavaScript) is treated exactly like `undefined`: nothing is queued on the
transaction and the call returns empty — every falsy `nextMillis` is
handled as a dead schedule. -/
theorem c10_falsy_next_is_dead (strategy : Strategy) (clk : Clocks)
    (id jobName data : String) (opts : RepeatOpts) (tOpts : TemplateOpts)
    (ov : Bool) (hv : validationPasses opts)
    (he : ¬ truthyInt opts.every = true)
    (hs : strategy (adjustNow clk.now0 opts.startDate
        (tOpts.prevMillis.getD 0)) opts jobName = .value 0) :
    (upsertJobScheduler strategy clk id opts jobName data tOpts ov).result
        = .empty ∧
    (upsertJobScheduler strategy clk id opts jobName data tOpts ov).writes
        = [] := by
  obtain ⟨h1, h2, h3⟩ := hv
  have hp : truthyStr opts.pattern = true := by
    rcases h2 with h | h
    · exact h
    · exact absurd h he
  constructor <;>
    by_cases hl : limitExceeded opts.limit (iterationCountOf opts.count)
        = true <;>
      by_cases hend : endDateExceeded opts.endDate clk.now0 = true <;>
        simp [upsertJobScheduler, h1, h3, hp, he, hl, hend, computeNext, hs]

/-- C10 witness: a strategy constantly returning `0` makes the concrete
pattern upsert return empty with no queued write. -/
theorem c10_falsy_next_is_dead_witness :
    (upsertJobScheduler (fun _ _ _ => StrategyOutcome.value 0)
        ⟨1000, 1000, 1000⟩ "s6" { pattern := some "* * * * *" } "j" "d" {}
        true).result = .empty ∧
    (upsertJobScheduler (fun _ _ _ => StrategyOutcome.value 0)
        ⟨1000, 1000, 1000⟩ "s6" { pattern := some "* * * * *" } "j" "d" {}
        true).writes = [] :=
  c10_falsy_next_is_dead (fun _ _ _ => StrategyOutcome.value 0)
    ⟨1000, 1000, 1000⟩ "s6" "j" "d" { pattern := some "* * * * *" } {} true
    (by decide) (by decide) rfl

end BullMQ

namespace BullMQ

/-- C5 (amended): for every interval-form (`every`) upsert that queues a
score `n`, `n ≥ max(now, startDate, prevMillis)` — the next fire is never
before the current wall clock, the start date, or the previously emitted
fire time. (The pattern form with `immediately` does NOT satisfy this
bound: the strategy returns the strategy-time wall clock, which can lie
below `prevMillis`; see the counterexample.) -/
theorem c5_interval_lower_bound (strategy : Strategy) (clk : Clocks)
    (id jobName data : String) (opts : RepeatOpts) (tOpts : TemplateOpts)
    (ov : Bool) (n : Int)
    (hnow : 0 ≤ clk.now0) (he : truthyInt opts.every = true)
    (hs : writtenScore (upsertJobScheduler strategy clk id opts jobName data
        tOpts ov) = some n) :
    clk.now0 ≤ n ∧
    (∀ s, opts.startDate = some s → s ≤ n) ∧
    (∀ p, tOpts.prevMillis = some p → p ≤ n) := by
  have hmain : (intervalNext (adjustNow clk.now0 opts.startDate
      (tOpts.prevMillis.getD 0)) (opts.every.getD 0)
      (tOpts.prevMillis.getD 0) opts.offset).1 = n := by
    revert hs
    unfold upsertJobScheduler
    split
    · intro hs; simp [writtenScore] at hs
    · split
      · intro hs; simp [writtenScore] at hs
      · split
        · intro hs; simp [writtenScore] at hs
        · dsimp only
          split
          · intro hs; simp [writtenScore] at hs
          · split
            · intro hs; simp [writtenScore] at hs
            · split
              · intro hs; simp [writtenScore] at hs
              · intro hs; simp [writtenScore] at hs
              · rename_i nv newOffset heq
                split
                · intro hs
                  simp [computeNext, he] at heq
                  revert hs
                  simp only [writtenScore]
                  split <;>
                    · intro hs
                      simp [scoreOfWrite] at hs
                      omega
                · intro hs; simp [writtenScore] at hs
  have hadj1 := adjustNow_ge_now0 clk.now0 opts.startDate
    (tOpts.prevMillis.getD 0)
  have hadj2 := adjustNow_ge_prev clk.now0 opts.startDate
    (tOpts.prevMillis.getD 0)
  have hiv := intervalNext_fst_ge (adjustNow clk.now0 opts.startDate
    (tOpts.prevMillis.getD 0)) (opts.every.getD 0)
    (tOpts.prevMillis.getD 0) opts.offset
  refine ⟨by omega, ?_, ?_⟩
  · intro s hsd
    have hst := adjustNow_ge_startDate clk.now0 s (tOpts.prevMillis.getD 0)
      hnow
    rw [hsd] at hmain hiv
    omega
  · intro p hpv
    rw [hpv] at hmain hiv hadj2
    simp only [Option.getD] at hmain hiv hadj2
    omega

/-- C5 witness: an interval upsert with `startDate = 200` and
`prevMillis = 1000` at `now = 1500` queues score `3000`, which dominates
the clock, the start date and the previous fire. -/
theorem c5_interval_lower_bound_witness :
    (1500 : Int) ≤ 3000 ∧
    (∀ s, (some 200 : Option Int) = some s → s ≤ 3000) ∧
    (∀ p, (some 1000 : Option Int) = some p → p ≤ 3000) :=
  c5_interval_lower_bound dummyStrategy ⟨1500, 1500, 1500⟩ "s1" "j" "d"
    { every := some 1000, offset := some 1000, startDate := some 200 }
    { prevMillis := some 1000 } false 3000 (by decide) (by decide)
    (by decide)

/-- C5 counterexample: a pattern upsert with `immediately` and
`prevMillis = 5000` at wall clock `1000` proceeds to write score `1000`,
strictly below `prevMillis = 5000` — so the bound does not hold for the
pattern form with `immediately`. -/
theorem c5_counterexample :
    writtenScore (upsertJobScheduler (defaultStrategyFor (libNextAt 999999)
        1000) ⟨1000, 1000, 1000⟩ "s5"
        { pattern := some "* * * * *", immediately := true } "j" "d"
        { prevMillis := some 5000 } true) = some 1000 ∧
    (upsertJobScheduler (defaultStrategyFor (libNextAt 999999) 1000)
        ⟨1000, 1000, 1000⟩ "s5"
        { pattern := some "* * * * *", immediately := true } "j" "d"
        { prevMillis := some 5000 } true).writes ≠ [] ∧
    (1000 : Int) < 5000 := by
  decide

end BullMQ
